import Mathlib

/-!
Verification of the backup/restore orchestration engine of
`universal-server-backup` (scripts/backup_v2.py, scripts/restore.py,
scripts/restore_v2.py, scripts/s3_backend.py, scripts/gcs_backend.py,
scripts/utils.py).

The Python code is shallowly embedded: each relevant routine becomes an
executable Lean function over explicit state (the S3 listing, the local
manifest store, the downloaded artifact's digest, the interactive
confirmation answer).  Files are modelled by their SHA-256 hex digest,
timestamps by epoch seconds (`Nat`), Python strings by `String`.
-/

/-! ## String helpers

Executable models of the Python string operations used by the scripts:
`a < b` on strings (code-point lexicographic, as Python compares `str`
and `pathlib.Path` values), `s.endswith(pat)`, and `pat in s`.
-/

/-- Lexicographic (code-point) strict order on char lists, as Python
compares strings. -/
def charListLt : List Char → List Char → Bool
  | [], [] => false
  | [], _ :: _ => true
  | _ :: _, [] => false
  | a :: as, b :: bs => decide (a < b) || (a == b && charListLt as bs)

/-- Python `a < b` on strings. -/
def strLt (a b : String) : Bool :=
  charListLt a.data b.data

/-- `prefEq p l` holds when `p` is an initial segment of `l`. -/
def prefEq : List Char → List Char → Bool
  | [], _ => true
  | _ :: _, [] => false
  | a :: ps, b :: l => a == b && prefEq ps l

/-- `suffEq p l` holds when `p` is a final segment of `l`. -/
def suffEq (p l : List Char) : Bool :=
  prefEq p.reverse l.reverse

/-- `subAt p l` holds when `p` occurs contiguously inside `l`. -/
def subAt (p : List Char) : List Char → Bool
  | [] => prefEq p []
  | a :: t => prefEq p (a :: t) || subAt p t

/-- Python `s.endswith(pat)`. -/
def strEndsWith (s pat : String) : Bool :=
  suffEq pat.data s.data

/-- Python `pat in s` (substring test). -/
def strContains (s pat : String) : Bool :=
  subAt pat.data s.data

/-- Helper for `baseName`: scan the key, restarting the accumulator at
every `/`, so what remains is the segment after the last `/`. -/
def baseNameAux (acc : List Char) : List Char → List Char
  | [] => acc.reverse
  | c :: t => if c = '/' then baseNameAux [] t else baseNameAux (c :: acc) t

/-- Python `Path(key).name`: the part of the key after the last `/`. -/
def baseName (key : String) : String :=
  ⟨baseNameAux [] key.data⟩

theorem prefEq_iff (p l : List Char) : prefEq p l = true ↔ ∃ t, l = p ++ t := by
  induction p generalizing l with
  | nil => simp [prefEq]
  | cons a ps ih =>
    cases l with
    | nil =>
      simp [prefEq]
    | cons b t =>
      simp only [prefEq, Bool.and_eq_true, beq_iff_eq, ih, List.cons_append]
      constructor
      · rintro ⟨rfl, u, rfl⟩
        exact ⟨u, rfl⟩
      · rintro ⟨u, h⟩
        injection h with h1 h2
        exact ⟨h1.symm, u, h2⟩

theorem suffEq_iff (p l : List Char) : suffEq p l = true ↔ ∃ t, l = t ++ p := by
  unfold suffEq
  rw [prefEq_iff]
  constructor
  · rintro ⟨t, ht⟩
    refine ⟨t.reverse, ?_⟩
    have := congrArg List.reverse ht
    simpa using this
  · rintro ⟨t, rfl⟩
    exact ⟨t.reverse, by simp⟩

theorem subAt_iff (p l : List Char) : subAt p l = true ↔ ∃ a b, l = a ++ p ++ b := by
  induction l with
  | nil =>
    simp only [subAt, prefEq_iff]
    constructor
    · rintro ⟨t, ht⟩
      exact ⟨[], t, by simpa using ht⟩
    · rintro ⟨a, b, h⟩
      rw [List.append_assoc] at h
      rcases List.append_eq_nil.mp h.symm with ⟨_, hpb⟩
      rcases List.append_eq_nil.mp hpb with ⟨hp, _⟩
      exact ⟨[], by simp [hp]⟩
  | cons c t ih =>
    simp only [subAt, Bool.or_eq_true, prefEq_iff, ih]
    constructor
    · rintro (⟨u, hu⟩ | ⟨a, b, hb⟩)
      · exact ⟨[], u, by simpa using hu⟩
      · exact ⟨c :: a, b, by simp [hb]⟩
    · rintro ⟨a, b, h⟩
      cases a with
      | nil => exact Or.inl ⟨b, by simpa using h⟩
      | cons a0 arest =>
        right
        refine ⟨arest, b, ?_⟩
        have h' : c = a0 ∧ t = arest ++ p ++ b := by simpa using h
        exact h'.2

theorem strEndsWith_append (s p : String) : strEndsWith (s ++ p) p = true := by
  rw [strEndsWith, suffEq_iff]
  exact ⟨s.data, by cases s; cases p; rfl⟩

/-! ## A stable insertion sort, descending

Python's `list.sort(reverse=True)` / `sorted(..., reverse=True)` is a
stable descending sort.  `insOrdLt lt x l` inserts `x` after every
element `y` with `¬ lt y x` (so equal keys keep their original order). -/

def insOrdLt {α : Type} (lt : α → α → Bool) (x : α) : List α → List α
  | [] => [x]
  | y :: ys => if lt y x then x :: y :: ys else y :: insOrdLt lt x ys

def sortDescLt {α : Type} (lt : α → α → Bool) : List α → List α
  | [] => []
  | x :: xs => insOrdLt lt x (sortDescLt lt xs)

theorem insOrdLt_perm {α : Type} (lt : α → α → Bool) (x : α) (l : List α) :
    List.Perm (insOrdLt lt x l) (x :: l) := by
  induction l with
  | nil => exact List.Perm.refl _
  | cons y ys ih =>
    simp only [insOrdLt]
    split
    · exact List.Perm.refl _
    · exact (ih.cons y).trans (List.Perm.swap x y ys)

theorem sortDescLt_perm {α : Type} (lt : α → α → Bool) (l : List α) :
    List.Perm (sortDescLt lt l) l := by
  induction l with
  | nil => exact List.Perm.refl _
  | cons x xs ih =>
    exact (insOrdLt_perm lt x (sortDescLt lt xs)).trans (ih.cons x)

theorem insOrdLt_pairwise {α : Type} (lt : α → α → Bool)
    (hasym : ∀ a b, lt a b = true → lt b a = false)
    (htr : ∀ a b c, lt a b = true → lt b c = true → lt a c = true)
    (x : α) (l : List α) (h : l.Pairwise (fun a b => lt a b = false)) :
    (insOrdLt lt x l).Pairwise (fun a b => lt a b = false) := by
  induction l with
  | nil => simp [insOrdLt]
  | cons y ys ih =>
    rcases List.pairwise_cons.mp h with ⟨hy, hys⟩
    simp only [insOrdLt]
    split
    · rename_i hyx
      refine List.pairwise_cons.mpr ⟨?_, h⟩
      intro z hz
      rcases List.mem_cons.mp hz with hzy | hz
      · rw [hzy]
        exact hasym y x hyx
      · by_contra hxz
        have hxz' : lt x z = true := by
          cases hcase : lt x z
          · exact absurd hcase hxz
          · rfl
        have hcontra : lt y z = true := htr y x z hyx hxz'
        rw [hy z hz] at hcontra
        exact Bool.false_ne_true hcontra
    · rename_i hyx
      refine List.pairwise_cons.mpr ⟨?_, ih hys⟩
      intro z hz
      have hz' := (insOrdLt_perm lt x ys).mem_iff.mp hz
      rcases List.mem_cons.mp hz' with hzx | hz'
      · rw [hzx]
        simp at hyx
        exact hyx
      · exact hy z hz'

theorem sortDescLt_pairwise {α : Type} (lt : α → α → Bool)
    (hasym : ∀ a b, lt a b = true → lt b a = false)
    (htr : ∀ a b c, lt a b = true → lt b c = true → lt a c = true)
    (l : List α) :
    (sortDescLt lt l).Pairwise (fun a b => lt a b = false) := by
  induction l with
  | nil => simp [sortDescLt]
  | cons x xs ih => exact insOrdLt_pairwise lt hasym htr x _ ih

theorem sortDescLt_head_max {α : Type} (lt : α → α → Bool)
    (hasym : ∀ a b, lt a b = true → lt b a = false)
    (htr : ∀ a b c, lt a b = true → lt b c = true → lt a c = true)
    (l : List α) (b : α) (hb : (sortDescLt lt l).head? = some b) :
    b ∈ l ∧ ∀ a ∈ l, lt b a = false := by
  have hperm := sortDescLt_perm lt l
  have hpw := sortDescLt_pairwise lt hasym htr l
  cases hs : sortDescLt lt l with
  | nil =>
    rw [hs] at hb
    exact absurd hb (by simp)
  | cons m rest =>
    rw [hs] at hb
    have hbm : m = b := by simpa using hb
    subst hbm
    rw [hs] at hperm hpw
    rcases List.pairwise_cons.mp hpw with ⟨hhead, _⟩
    constructor
    · exact hperm.mem_iff.mp (List.mem_cons_self m rest)
    · intro a ha
      have ha' : a ∈ m :: rest := hperm.mem_iff.mpr ha
      rcases List.mem_cons.mp ha' with ham | ha'
      · rw [ham]
        cases hcase : lt m m
        · rfl
        · have hf := hasym m m hcase
          rw [hf] at hcase
          exact absurd hcase (by decide)
      · exact hhead a ha'

/-! ## Data model

`Manifest` embeds the JSON manifest dict written by `backup_v2.py` and
read back by `restore.py` / `restore_v2.py`.  Keys that a given backup
type does not write are `Option` fields (Python dict `.get` returning
`None`).  `btype` embeds the `'type'` key. -/

structure Manifest where
  btype : String
  timestamp : String
  filename : String
  source_disk : Option String
  source_size_gb : Option Nat
  backup_size_bytes : Nat
  checksum_sha256 : Option String
  compression_level : Option Nat
  base_backup : Option String
  backed_up_dirs : Option (List String)
deriving Repr, DecidableEq

/-- One object of an S3 `list_objects_v2` response: `Key`, `Size`,
`LastModified` (epoch seconds; the backend's clock, not any timestamp
embedded in the file name). -/
structure S3Obj where
  key : String
  size : Nat
  lastModified : Nat
deriving Repr, DecidableEq

namespace BackupV2

/-- Result of `get_disk_info` (the fields the engine reads). -/
structure DiskInfo where
  disk : String
  size_gb : Nat
deriving Repr, DecidableEq

/-- Result of one `create_*_backup` call: `failed` is Python `return
None`, `dryRun` is the early dry-run return (no manifest written),
`created m` means manifest `m` was written to the manifest store. -/
inductive BackupResult where
  | failed
  | dryRun
  | created (m : Manifest)
deriving Repr, DecidableEq

/-- `BackupEngine.find_last_manifest`: globs `MANIFEST_DIR` and sorts the
manifest FILE NAMES in reverse lexicographic order (Python
`sorted(paths, reverse=True)`), then returns the first manifest whose
`type` matches the filter (any type when the filter is `None`).  The
store is the list of `(manifest file name, parsed manifest)` pairs. -/
def find_last_manifest (store : List (String × Manifest))
    (backup_type : Option String) : Option Manifest :=
  ((sortDescLt (fun a b => strLt a.1 b.1) store).find? fun e =>
    match backup_type with
    | none => true
    | some t => e.2.btype == t).map (·.2)

/-- `BackupEngine.create_full_backup`.  The external `dd | pigz`
pipeline is abstracted by `captureOk` (subprocess success), `checksum`
(SHA-256 of the produced artifact) and `size` (its byte size);
`get_disk_info` failure is `disk_info = none`. -/
def create_full_backup (name timestamp : String)
    (disk_info : Option DiskInfo) (compression_level : Nat)
    (captureOk : Bool) (checksum : String) (size : Nat)
    (dry_run : Bool) : BackupResult :=
  match disk_info with
  | none => .failed
  | some d =>
    if dry_run then .dryRun
    else if captureOk then
      .created
        { btype := "full"
          timestamp := timestamp
          filename := name ++ "_full_" ++ timestamp ++ ".img.gz"
          source_disk := some d.disk
          source_size_gb := some d.size_gb
          backup_size_bytes := size
          checksum_sha256 := some checksum
          compression_level := some compression_level
          base_backup := none
          backed_up_dirs := none }
    else .failed

/-- The constant directory list of `create_incremental_backup`. -/
def backup_dirs : List String :=
  ["/etc", "/home", "/var/www", "/opt", "/root", "/usr/local"]

/-- `BackupEngine.create_incremental_backup`.  The rsync snapshot and
tar compression are abstracted by `captureOk`, `checksum`, `size`; the
base reference is `find_last_manifest(None)` regardless of its type. -/
def create_incremental_backup (store : List (String × Manifest))
    (name timestamp : String)
    (captureOk : Bool) (checksum : String) (size : Nat)
    (dry_run : Bool) : BackupResult :=
  if dry_run then .dryRun
  else
    let last_manifest := find_last_manifest store none
    if captureOk then
      .created
        { btype := "incremental"
          timestamp := timestamp
          filename := name ++ "_incremental_" ++ timestamp ++ ".tar.gz"
          source_disk := none
          source_size_gb := none
          backup_size_bytes := size
          checksum_sha256 := some checksum
          compression_level := none
          base_backup := last_manifest.map (·.filename)
          backed_up_dirs := some backup_dirs }
    else .failed

/-- `BackupEngine.create_differential_backup`: looks up the last Full
manifest, falls back to `create_full_backup` when there is none, and
otherwise DELEGATES to `create_incremental_backup` (the source performs
no differential-specific capture). -/
def create_differential_backup (store : List (String × Manifest))
    (name timestamp : String)
    (disk_info : Option DiskInfo) (compression_level : Nat)
    (captureOk : Bool) (checksum : String) (size : Nat)
    (dry_run : Bool) : BackupResult :=
  if dry_run then .dryRun
  else
    match find_last_manifest store (some "full") with
    | none =>
      create_full_backup name timestamp disk_info compression_level
        captureOk checksum size dry_run
    | some _ =>
      create_incremental_backup store name timestamp
        captureOk checksum size dry_run

/-- The non-manifest objects of a listing (`rotate_s3_backups` filters
out `.manifest.json` sidecars before counting). -/
def backup_objects (listing : List S3Obj) : List S3Obj :=
  listing.filter fun o => !(strEndsWith o.key ".manifest.json")

/-- The keys deleted for a run of old backups: each blob key followed by
its sidecar manifest key. -/
def deletionKeys : List S3Obj → List String
  | [] => []
  | o :: rest => o.key :: (o.key ++ ".manifest.json") :: deletionKeys rest

/-- The sort key of `rotate_s3_backups`: compare objects by
`LastModified`. -/
def obj_lt (a b : S3Obj) : Bool :=
  decide (a.lastModified < b.lastModified)

/-- The non-manifest blobs sorted most-recent-first, as
`rotate_s3_backups` builds them. -/
def sorted_backups (listing : List S3Obj) : List S3Obj :=
  sortDescLt obj_lt (backup_objects listing)

/-- `BackupEngine.rotate_s3_backups`: sorts the non-manifest blobs by
`LastModified` descending, keeps the 5 most recent (`MAX_BACKUPS = 5`)
and deletes the rest together with their sidecar manifests.  Returns
the list of deleted keys, in deletion order. -/
def rotate_s3_backups (listing : List S3Obj) : List String :=
  if (sorted_backups listing).length > 5 then
    deletionKeys ((sorted_backups listing).drop 5)
  else []

/-- The backend listing after a rotation run: every object whose key was
deleted is gone (S3 `delete_object` semantics). -/
def afterRotate (listing : List S3Obj) : List S3Obj :=
  listing.filter fun o => !((rotate_s3_backups listing).contains o.key)

end BackupV2

namespace RestoreV2

/-- One row of `RestoreEngine.list_backups_s3`'s result: the S3 key, the
file name (`Path(key).name`), the size and the last-modified time.  The
source formats `LastModified` with `strftime('%Y-%m-%d %H:%M:%S')` and
sorts those strings; that string order coincides with the numeric order
of the epoch-second values modelled here. -/
structure BackupEntry where
  key : String
  filename : String
  size : Nat
  last_modified : Nat
deriving Repr, DecidableEq

/-- The sort key of `list_backups_s3`: compare entries by last-modified
time. -/
def entry_lt (a b : BackupEntry) : Bool :=
  decide (a.last_modified < b.last_modified)

/-- The rows built by `list_backups_s3` before sorting: the `.img.gz` /
`.tar.gz` objects of the listing, in listing order. -/
def raw_entries (contents : List S3Obj) : List BackupEntry :=
  (contents.filter fun o =>
      strEndsWith o.key ".img.gz" || strEndsWith o.key ".tar.gz").map
    fun o => ⟨o.key, baseName o.key, o.size, o.lastModified⟩

/-- `RestoreEngine.list_backups_s3`: keep the `.img.gz` / `.tar.gz`
objects of the listing and sort them by last-modified time, most recent
first. -/
def list_backups_s3 (contents : List S3Obj) : List BackupEntry :=
  sortDescLt entry_lt (raw_entries contents)

/-- The backup-selection step of `restore_v2.main`: `"latest"` takes the
first entry of the reverse-chronological listing, any other selector is
an exact file-name match. -/
def select_backup (selector : String) (backups : List BackupEntry) :
    Option BackupEntry :=
  if selector == "latest" then backups.head?
  else backups.find? fun b => b.filename == selector

/-- `RestoreEngine.verify_backup`.  First component: the returned
boolean.  Second component: whether the SHA-256 digest of the artifact
was computed at all (`hashlib` reached).  `manifest = none` is a missing
or unreadable sidecar file. -/
def verify_backup (manifest : Option Manifest) (actualDigest : String) :
    Bool × Bool :=
  match manifest with
  | none => (true, false)
  | some m =>
    match m.checksum_sha256 with
    | none => (true, false)
    | some expected => (actualDigest == expected, true)

/-- Line 431 of `restore_v2.py`:
`'full' in selected_backup['filename'] or
 selected_backup['filename'].endswith('.img.gz')`. -/
def is_full_backup (filename : String) : Bool :=
  strContains filename "full" || strEndsWith filename ".img.gz"

/-- `RestoreEngine.restore_full_backup` (return value, dd-pipeline
invoked): dry-run returns success without writing; anything but a
literal `YES` at the prompt cancels; otherwise `pigz -dc | dd of=target`
runs and the call reports the subprocess outcome `ddOk`. -/
def restore_full_backup (confirm : String) (ddOk : Bool)
    (dry_run : Bool) : Bool × Bool :=
  if dry_run then (true, false)
  else if confirm != "YES" then (false, false)
  else (ddOk, true)

/-- `RestoreEngine.restore_incremental_backup` (return value, tar
extraction over `/` invoked). -/
def restore_incremental_backup (tarOk : Bool) (dry_run : Bool) :
    Bool × Bool :=
  if dry_run then (true, false) else (tarOk, true)

/-- CLI arguments of `restore_v2.main` on the restore path. -/
structure V2Args where
  backup : String
  target : Option String
  dry_run : Bool
  no_verify : Bool
deriving Repr, DecidableEq

/-- The environment a `restore_v2.main` run interacts with: the S3
listing, whether the artifact download succeeds, the downloaded sidecar
manifest (none if absent), the actual SHA-256 of the downloaded
artifact, the interactive confirmation answer, and the outcomes of the
external dd / tar pipelines. -/
structure V2World where
  contents : List S3Obj
  downloadOk : Bool
  manifest : Option Manifest
  actualDigest : String
  confirm : String
  ddOk : Bool
  tarOk : Bool
deriving Repr, DecidableEq

/-- Observable outcome of a `restore_v2.main` run: whether the process
exits successfully, whether the destructive `dd` image write ran, and
whether the tar extraction over the live root ran. -/
structure V2Run where
  exitOk : Bool
  ddInvoked : Bool
  tarInvoked : Bool
deriving Repr, DecidableEq

/-- `restore_v2.main`, restore path (`--list` not taken, `--backup`
given).  Mirrors the source order: list, select, download, verify
(unless `--no-verify`), then dispatch on the FILE NAME to the full-image
or incremental routine. -/
def v2_main (args : V2Args) (w : V2World) : V2Run :=
  let backups := list_backups_s3 w.contents
  if backups.isEmpty then ⟨false, false, false⟩
  else
    match select_backup args.backup backups with
    | none => ⟨false, false, false⟩
    | some sel =>
      if !w.downloadOk then ⟨false, false, false⟩
      else if !args.no_verify && !(verify_backup w.manifest w.actualDigest).1 then
        ⟨false, false, false⟩
      else if is_full_backup sel.filename then
        match args.target with
        | none => ⟨false, false, false⟩
        | some _ =>
          let r := restore_full_backup w.confirm w.ddOk args.dry_run
          ⟨r.1, r.2, false⟩
      else
        let r := restore_incremental_backup w.tarOk args.dry_run
        ⟨r.1, false, r.2⟩

end RestoreV2

namespace RestoreV1

/-- `SystemRestore.verify_backup` of `restore.py` (delegating to
`utils.verify_checksum`).  Same observable shape as the v2 variant:
(returned boolean, digest computed?). -/
def verify_backup (manifest : Option Manifest) (actualDigest : String) :
    Bool × Bool :=
  match manifest with
  | none => (true, false)
  | some m =>
    match m.checksum_sha256 with
    | none => (true, false)
    | some expected => (actualDigest == expected, true)

/-- The environment of a `SystemRestore.run_restore` run. -/
structure V1World where
  downloadOk : Bool
  manifest : Option Manifest
  actualDigest : String
  confirm : String
  ddOk : Bool
deriving Repr, DecidableEq

/-- Observable outcome of `run_restore`: return value, whether the
destructive `dd` write ran, and onto which device. -/
structure V1Run where
  success : Bool
  ddInvoked : Bool
  ddTarget : Option String
deriving Repr, DecidableEq

/-- `SystemRestore.run_restore`: download, verify, resolve the target
disk (explicit argument, else the manifest's `source_disk`, else the
literal default `/dev/sda`), then `restore_image` (which returns early
in verify-only mode, asks for a literal `YES` otherwise, and then pipes
the image into `dd of=target`). -/
def run_restore (target_disk : Option String) (verify_only : Bool)
    (w : V1World) : V1Run :=
  if !w.downloadOk then ⟨false, false, none⟩
  else if !(verify_backup w.manifest w.actualDigest).1 then ⟨false, false, none⟩
  else
    let target :=
      match target_disk with
      | some t => t
      | none =>
        match w.manifest with
        | some m =>
          match m.source_disk with
          | some d => d
          | none => "/dev/sda"
        | none => "/dev/sda"
    if verify_only then ⟨true, false, none⟩
    else if w.confirm != "YES" then ⟨false, false, none⟩
    else ⟨w.ddOk, true, some target⟩

end RestoreV1

namespace S3B

/-- `S3Backend._ensure_bucket_exists`: `head_bucket`, and on a 404 a
`create_bucket`.  The backend state is the list of existing bucket
names; `createAllowed = false` is a denied `create_bucket` (the
exception propagates, modelled as `none`). -/
def ensure_bucket_exists (buckets : List String) (bucket_name : String)
    (createAllowed : Bool) : Option (List String) :=
  if buckets.contains bucket_name then some buckets
  else if createAllowed then some (buckets ++ [bucket_name]) else none

end S3B

namespace GCSB

/-- `GCSBackend._ensure_bucket_exists`: `bucket.exists()`, and a
`create_bucket` when absent; structurally identical to the S3 variant. -/
def ensure_bucket_exists (buckets : List String) (bucket_name : String)
    (createAllowed : Bool) : Option (List String) :=
  if buckets.contains bucket_name then some buckets
  else if createAllowed then some (buckets ++ [bucket_name]) else none

end GCSB

/-! ## Claim C2 -/

/-- Claim C2 [exhibits the code defect]: a `run_restore` invocation with
no explicit target whose downloaded backup has no manifest (hence no
recorded source descriptor) does NOT fail: `SystemRestore.run_restore`
substitutes the default device `/dev/sda` and, after the user types
`YES`, runs the destructive dd write onto it (`restore.py` line 277),
instead of aborting as the claim requires. -/
theorem run_restore_defaults_to_dev_sda :
    RestoreV1.run_restore none false
      { downloadOk := true, manifest := none, actualDigest := "0123",
        confirm := "YES", ddOk := true } =
      { success := true, ddInvoked := true, ddTarget := some "/dev/sda" } := by
  decide

/-! ## Claim C3 -/

/-- The Full manifest of the C3 counterexample store. -/
def fullC3 : Manifest :=
  { btype := "full", timestamp := "2025-01-01_00-00-00",
    filename := "srv_full_2025-01-01_00-00-00.img.gz",
    source_disk := some "/dev/sda", source_size_gb := some 100,
    backup_size_bytes := 1000, checksum_sha256 := some "aaaa",
    compression_level := some 6, base_backup := none, backed_up_dirs := none }

/-- A later Incremental manifest in the C3 counterexample store. -/
def incC3 : Manifest :=
  { btype := "incremental", timestamp := "2025-01-02_00-00-00",
    filename := "srv_incremental_2025-01-02_00-00-00.tar.gz",
    source_disk := none, source_size_gb := none,
    backup_size_bytes := 200, checksum_sha256 := some "bbbb",
    compression_level := none,
    base_backup := some "srv_full_2025-01-01_00-00-00.img.gz",
    backed_up_dirs := some BackupV2.backup_dirs }

/-- A manifest store holding one Full backup and one later Incremental. -/
def storeC3 : List (String × Manifest) :=
  [(fullC3.filename ++ ".manifest.json", fullC3),
   (incC3.filename ++ ".manifest.json", incC3)]

/-- Claim C3 [exhibits the code defect]: with a Full manifest present
(`fullC3`, the unique and hence most recent Full), a differential
backup's resulting manifest records `base_backup =
"srv_incremental_2025-01-02_00-00-00.tar.gz"` — the most recent manifest
of ANY type, because `create_differential_backup` delegates to
`create_incremental_backup` — not the most recent Full manifest
`"srv_full_2025-01-01_00-00-00.img.gz"` as the claim requires (and the
resulting type is `incremental`, not `differential`). -/
theorem differential_base_is_not_last_full :
    BackupV2.find_last_manifest storeC3 (some "full") = some fullC3 ∧
    (∀ e ∈ storeC3, e.2.btype = "full" → e.2 = fullC3) ∧
    BackupV2.create_differential_backup storeC3 "srv" "2025-01-03_00-00-00"
      (some { disk := "/dev/sda", size_gb := 100 }) 6 true "cccc" 300 false =
      BackupV2.BackupResult.created
        { btype := "incremental", timestamp := "2025-01-03_00-00-00",
          filename := "srv_incremental_2025-01-03_00-00-00.tar.gz",
          source_disk := none, source_size_gb := none,
          backup_size_bytes := 300, checksum_sha256 := some "cccc",
          compression_level := none,
          base_backup := some "srv_incremental_2025-01-02_00-00-00.tar.gz",
          backed_up_dirs := some BackupV2.backup_dirs } ∧
    ("srv_incremental_2025-01-02_00-00-00.tar.gz" : String) ≠
      "srv_full_2025-01-01_00-00-00.img.gz" := by
  refine ⟨by decide, by decide, by decide, by decide⟩

/-! ## Claim C4 -/

/-- An old Incremental manifest (timestamp 2024-01-01). -/
def incC4 : Manifest :=
  { btype := "incremental", timestamp := "2024-01-01_00-00-00",
    filename := "srv_incremental_2024-01-01_00-00-00.tar.gz",
    source_disk := none, source_size_gb := none,
    backup_size_bytes := 200, checksum_sha256 := some "bbbb",
    compression_level := none, base_backup := none,
    backed_up_dirs := some BackupV2.backup_dirs }

/-- A much newer Full manifest (timestamp 2025-06-06). -/
def fullC4 : Manifest :=
  { btype := "full", timestamp := "2025-06-06_00-00-00",
    filename := "srv_full_2025-06-06_00-00-00.img.gz",
    source_disk := some "/dev/sda", source_size_gb := some 100,
    backup_size_bytes := 1000, checksum_sha256 := some "aaaa",
    compression_level := some 6, base_backup := none, backed_up_dirs := none }

/-- A manifest store where the most recent manifest is the Full one. -/
def storeC4 : List (String × Manifest) :=
  [(incC4.filename ++ ".manifest.json", incC4),
   (fullC4.filename ++ ".manifest.json", fullC4)]

/-- Claim C4 [exhibits the code defect]: `find_last_manifest` sorts
manifest FILE NAMES lexicographically, and `"srv_incremental_..."`
sorts above `"srv_full_..."` (`'i' > 'f'`) regardless of timestamps.
So although `fullC4` (2025-06-06) is strictly more recent than `incC4`
(2024-01-01), `find_last_manifest(None)` returns the old incremental and
`create_incremental_backup` records it as `base_backup` — not "the
single most recent existing manifest" the claim (and the function's own
docstring) promises. -/
theorem incremental_base_is_not_most_recent :
    strLt incC4.timestamp fullC4.timestamp = true ∧
    (∀ e ∈ storeC4, e.2 = fullC4 ∨ strLt e.2.timestamp fullC4.timestamp = true) ∧
    BackupV2.find_last_manifest storeC4 none = some incC4 ∧
    BackupV2.create_incremental_backup storeC4 "srv" "2025-07-01_00-00-00"
      true "cccc" 300 false =
      BackupV2.BackupResult.created
        { btype := "incremental", timestamp := "2025-07-01_00-00-00",
          filename := "srv_incremental_2025-07-01_00-00-00.tar.gz",
          source_disk := none, source_size_gb := none,
          backup_size_bytes := 300, checksum_sha256 := some "cccc",
          compression_level := none,
          base_backup := some "srv_incremental_2024-01-01_00-00-00.tar.gz",
          backed_up_dirs := some BackupV2.backup_dirs } ∧
    incC4.filename ≠ fullC4.filename := by
  refine ⟨by decide, by decide, by decide, by decide, by decide⟩

/-! ## Claim C8 -/

/-- The two `_ensure_bucket_exists` embeddings are literally the same
function of the abstract backend state. -/
theorem gcs_ensure_eq_s3_ensure :
    GCSB.ensure_bucket_exists = S3B.ensure_bucket_exists := rfl

theorem s3_ensure_core (s : List String) (name : String) (allow : Bool)
    (s1 : List String) (hc : s.count name ≤ 1)
    (h : S3B.ensure_bucket_exists s name allow = some s1) :
    S3B.ensure_bucket_exists s1 name allow = some s1 ∧ s1.count name = 1 := by
  unfold S3B.ensure_bucket_exists at h ⊢
  by_cases hmem : s.contains name = true
  · rw [if_pos hmem] at h
    have hs : s = s1 := by injection h
    subst hs
    rw [if_pos hmem]
    have hmem' : name ∈ s := by simpa using hmem
    exact ⟨rfl, Nat.le_antisymm hc (List.count_pos_iff.mpr hmem')⟩
  · rw [if_neg hmem] at h
    cases hallow : allow with
    | false =>
      rw [hallow] at h
      simp at h
    | true =>
      rw [hallow] at h
      simp only [if_true] at h
      have hs : s ++ [name] = s1 := by injection h
      subst hs
      have hnotmem : name ∉ s := by
        intro hin
        exact hmem (by simpa using hin)
      have hmem1 : (s ++ [name]).contains name = true := by
        simp
      rw [if_pos hmem1]
      refine ⟨rfl, ?_⟩
      rw [List.count_append]
      rw [List.count_eq_zero.mpr hnotmem]
      simp

/-- Claim C8: `_ensure_bucket_exists` is idempotent, for both the S3 and
the GCS backend.  From any backend state holding the bucket at most once
(bucket names are globally unique), a successful call yields a state
with exactly one copy of the bucket, and a second call succeeds without
creating anything (it returns the state unchanged). -/
theorem ensure_bucket_idempotent (s : List String) (name : String)
    (allow : Bool) (s1 : List String) (hc : s.count name ≤ 1) :
    (S3B.ensure_bucket_exists s name allow = some s1 →
      S3B.ensure_bucket_exists s1 name allow = some s1 ∧ s1.count name = 1) ∧
    (GCSB.ensure_bucket_exists s name allow = some s1 →
      GCSB.ensure_bucket_exists s1 name allow = some s1 ∧ s1.count name = 1) := by
  rw [gcs_ensure_eq_s3_ensure]
  exact ⟨s3_ensure_core s name allow s1 hc, s3_ensure_core s name allow s1 hc⟩

/-- Witness for C8 at a concrete state: creating the bucket in an empty
backend and calling again. -/
theorem ensure_bucket_idempotent_witness :
    S3B.ensure_bucket_exists ["universal-backups"] "universal-backups" true =
      some ["universal-backups"] ∧
    List.count "universal-backups" ["universal-backups"] = 1 :=
  (ensure_bucket_idempotent [] "universal-backups" true ["universal-backups"]
    (by decide)).1 (by decide)

/-! ## Claim C9 -/

/-- Claim C9: when the sidecar manifest is absent, or present but
without a `checksum_sha256` field, both restore scripts' `verify_backup`
return success (True) and never compute a digest of the artifact; the v2
main flow then behaves exactly as if `--no-verify` had been passed, so
the restore proceeds with integrity verification effectively disabled. -/
theorem missing_checksum_disables_verification :
    (∀ d : String, RestoreV2.verify_backup none d = (true, false)) ∧
    (∀ (m : Manifest) (d : String), m.checksum_sha256 = none →
      RestoreV2.verify_backup (some m) d = (true, false)) ∧
    (∀ d : String, RestoreV1.verify_backup none d = (true, false)) ∧
    (∀ (m : Manifest) (d : String), m.checksum_sha256 = none →
      RestoreV1.verify_backup (some m) d = (true, false)) ∧
    (∀ (args : RestoreV2.V2Args) (w : RestoreV2.V2World),
      (w.manifest = none ∨
        ∃ m, w.manifest = some m ∧ m.checksum_sha256 = none) →
      RestoreV2.v2_main args w =
        RestoreV2.v2_main { args with no_verify := true } w) := by
  refine ⟨fun d => rfl, fun m d hck => ?_, fun d => rfl, fun m d hck => ?_, ?_⟩
  · simp [RestoreV2.verify_backup, hck]
  · simp [RestoreV1.verify_backup, hck]
  · intro args w hm
    have hv : (RestoreV2.verify_backup w.manifest w.actualDigest).1 = true := by
      rcases hm with hnone | ⟨m, hsome, hck⟩
      · rw [hnone]
        rfl
      · rw [hsome]
        simp [RestoreV2.verify_backup, hck]
    simp [RestoreV2.v2_main, hv]

/-- Witness for C9: a concrete manifest with no `checksum_sha256` passes
verification without hashing anything. -/
theorem missing_checksum_disables_verification_witness :
    RestoreV2.verify_backup
      (some { btype := "full", timestamp := "2020-01-01_00-00-00",
              filename := "old_full_2020-01-01_00-00-00.img.gz",
              source_disk := some "/dev/sda", source_size_gb := some 10,
              backup_size_bytes := 5, checksum_sha256 := none,
              compression_level := some 6, base_backup := none,
              backed_up_dirs := none }) "deadbeef" = (true, false) :=
  missing_checksum_disables_verification.2.1
    { btype := "full", timestamp := "2020-01-01_00-00-00",
      filename := "old_full_2020-01-01_00-00-00.img.gz",
      source_disk := some "/dev/sda", source_size_gb := some 10,
      backup_size_bytes := 5, checksum_sha256 := none,
      compression_level := some 6, base_backup := none,
      backed_up_dirs := none } "deadbeef" rfl

/-! ## Claim C5 -/

/-- Claim C5: when the manifest store holds no Full manifest, a
(non-dry-run) differential backup request falls back to
`create_full_backup` and produces a manifest of type `full` — it is
never silently skipped. -/
theorem differential_without_full_creates_full
    (store : List (String × Manifest)) (name timestamp : String)
    (d : BackupV2.DiskInfo) (lvl : Nat) (checksum : String) (size : Nat)
    (hnofull : ∀ e ∈ store, e.2.btype ≠ "full") :
    BackupV2.create_differential_backup store name timestamp (some d) lvl
      true checksum size false =
    BackupV2.BackupResult.created
      { btype := "full", timestamp := timestamp,
        filename := name ++ "_full_" ++ timestamp ++ ".img.gz",
        source_disk := some d.disk, source_size_gb := some d.size_gb,
        backup_size_bytes := size, checksum_sha256 := some checksum,
        compression_level := some lvl, base_backup := none,
        backed_up_dirs := none } := by
  have hfind : BackupV2.find_last_manifest store (some "full") = none := by
    unfold BackupV2.find_last_manifest
    rw [Option.map_eq_none']
    rw [List.find?_eq_none]
    intro x hx
    have hx' : x ∈ store :=
      (sortDescLt_perm (fun a b => strLt a.1 b.1) store).mem_iff.mp hx
    simpa using hnofull x hx'
  simp [BackupV2.create_differential_backup, hfind, BackupV2.create_full_backup]

/-- Witness for C5: an empty manifest store (so certainly no Full
manifest) and a concrete differential request. -/
theorem differential_without_full_creates_full_witness :
    BackupV2.create_differential_backup [] "srv" "2025-05-05_00-00-00"
      (some { disk := "/dev/sda", size_gb := 40 }) 6 true "eeee" 77 false =
    BackupV2.BackupResult.created
      { btype := "full", timestamp := "2025-05-05_00-00-00",
        filename := "srv" ++ "_full_" ++ "2025-05-05_00-00-00" ++ ".img.gz",
        source_disk := some "/dev/sda", source_size_gb := some 40,
        backup_size_bytes := 77, checksum_sha256 := some "eeee",
        compression_level := some 6, base_backup := none,
        backed_up_dirs := none } :=
  differential_without_full_creates_full [] "srv" "2025-05-05_00-00-00"
    { disk := "/dev/sda", size_gb := 40 } 6 "eeee" 77
    (by intro e he; cases he)

/-! ## Claim C1 -/

/-- Claim C1: whenever the downloaded artifact's SHA-256 digest differs
from the checksum recorded in its manifest, both restore scripts'
verification returns failure (after computing the digest), and neither
restore flow ever reaches a destructive step: `restore_v2.main` exits
with an error without invoking dd or tar, and `restore.py`'s
`run_restore` returns failure without invoking dd — for every choice of
CLI arguments (with verification not explicitly disabled), listing
contents, target and confirmation input. -/
theorem checksum_mismatch_aborts_restore
    (m : Manifest) (expected actual : String)
    (hck : m.checksum_sha256 = some expected) (hne : actual ≠ expected) :
    RestoreV2.verify_backup (some m) actual = (false, true) ∧
    RestoreV1.verify_backup (some m) actual = (false, true) ∧
    (∀ (args : RestoreV2.V2Args) (w : RestoreV2.V2World),
      args.no_verify = false → w.manifest = some m → w.actualDigest = actual →
      RestoreV2.v2_main args w =
        { exitOk := false, ddInvoked := false, tarInvoked := false }) ∧
    (∀ (target_disk : Option String) (verify_only : Bool)
        (w : RestoreV1.V1World),
      w.manifest = some m → w.actualDigest = actual →
      RestoreV1.run_restore target_disk verify_only w =
        { success := false, ddInvoked := false, ddTarget := none }) := by
  have hbeq : (actual == expected) = false := beq_eq_false_iff_ne.mpr hne
  have hv2 : RestoreV2.verify_backup (some m) actual = (false, true) := by
    simp [RestoreV2.verify_backup, hck, hbeq]
  have hv1 : RestoreV1.verify_backup (some m) actual = (false, true) := by
    simp [RestoreV1.verify_backup, hck, hbeq]
  refine ⟨hv2, hv1, ?_, ?_⟩
  · intro args w hnv hm ha
    have hfail : (RestoreV2.verify_backup w.manifest w.actualDigest).1 = false := by
      rw [hm, ha, hv2]
    simp only [RestoreV2.v2_main]
    by_cases hempty : (RestoreV2.list_backups_s3 w.contents).isEmpty = true
    · simp [hempty]
    · cases hsel : RestoreV2.select_backup args.backup
          (RestoreV2.list_backups_s3 w.contents) with
      | none => simp [hempty, hsel]
      | some sel =>
        by_cases hdl : w.downloadOk = true
        · simp [hempty, hsel, hdl, hnv, hfail]
        · have hdl2 : w.downloadOk = false := by
            cases hcase : w.downloadOk
            · rfl
            · exact absurd hcase hdl
          simp [hempty, hsel, hdl2]
  · intro target_disk verify_only w hm ha
    have hfail : (RestoreV1.verify_backup w.manifest w.actualDigest).1 = false := by
      rw [hm, ha, hv1]
    by_cases hdl : w.downloadOk = true
    · simp [RestoreV1.run_restore, hdl, hfail]
    · have hdl2 : w.downloadOk = false := by
        cases hcase : w.downloadOk
        · rfl
        · exact absurd hcase hdl
      simp [RestoreV1.run_restore, hdl2]

/-- The manifest of the C1 witness run: it claims checksum `"abc"`. -/
def manifestC1 : Manifest :=
  { btype := "full", timestamp := "2025-01-01_00-00-00",
    filename := "srv_full_2025-01-01_00-00-00.img.gz",
    source_disk := some "/dev/sda", source_size_gb := some 10,
    backup_size_bytes := 5, checksum_sha256 := some "abc",
    compression_level := some 6, base_backup := none,
    backed_up_dirs := none }

/-- Witness for C1: a concrete mismatching run: the manifest claims
`"abc"`, the downloaded artifact hashes to `"def"`; verification fails
and a complete v1 restore run reports failure without any dd write. -/
theorem checksum_mismatch_aborts_restore_witness :
    RestoreV2.verify_backup (some manifestC1) "def" = (false, true) ∧
    RestoreV1.run_restore (some "/dev/sdb") false
      { downloadOk := true, manifest := some manifestC1,
        actualDigest := "def", confirm := "YES", ddOk := true } =
      { success := false, ddInvoked := false, ddTarget := none } :=
  ⟨(checksum_mismatch_aborts_restore manifestC1 "abc" "def" rfl (by decide)).1,
   (checksum_mismatch_aborts_restore manifestC1 "abc" "def" rfl (by decide)).2.2.2
     (some "/dev/sdb") false
     { downloadOk := true, manifest := some manifestC1,
       actualDigest := "def", confirm := "YES", ddOk := true } rfl rfl⟩

/-! ## Claim C10 -/

/-- Claim C10: in the v2 restore flow the destructive full-image path is
taken if and only if the selected backup's FILE NAME contains the
substring `full` or ends in `.img.gz`; any other file name is routed to
the incremental path (tar over the live root).  The dispatch reads only
the file name: the downloaded manifest (in particular its recorded type)
does not influence the routing — changing it changes nothing once
verification is out of the way. -/
theorem restore_dispatch_by_filename :
    (∀ f : String,
      RestoreV2.is_full_backup f = true ↔
        ((∃ a b, f.data = a ++ ("full".data) ++ b) ∨
         (∃ a, f.data = a ++ (".img.gz".data)))) ∧
    (∀ (args : RestoreV2.V2Args) (w : RestoreV2.V2World) (m : Option Manifest),
      args.no_verify = true →
      RestoreV2.v2_main args { w with manifest := m } =
        RestoreV2.v2_main args w) ∧
    (∀ (args : RestoreV2.V2Args) (w : RestoreV2.V2World)
        (sel : RestoreV2.BackupEntry) (t : String),
      RestoreV2.select_backup args.backup
          (RestoreV2.list_backups_s3 w.contents) = some sel →
      w.downloadOk = true → args.no_verify = true → args.dry_run = false →
      w.confirm = "YES" →
      ((RestoreV2.is_full_backup sel.filename = true → args.target = some t →
          (RestoreV2.v2_main args w).ddInvoked = true ∧
          (RestoreV2.v2_main args w).tarInvoked = false) ∧
       (RestoreV2.is_full_backup sel.filename = false →
          (RestoreV2.v2_main args w).tarInvoked = true ∧
          (RestoreV2.v2_main args w).ddInvoked = false))) := by
  refine ⟨?_, ?_, ?_⟩
  · intro f
    simp only [RestoreV2.is_full_backup, strContains, strEndsWith,
      Bool.or_eq_true, subAt_iff, suffEq_iff]
  · intro args w m hnv
    simp [RestoreV2.v2_main, hnv]
  · intro args w sel t hsel hdl hnv hdr hconfirm
    have hempty : (RestoreV2.list_backups_s3 w.contents).isEmpty = false := by
      cases hb : RestoreV2.list_backups_s3 w.contents with
      | nil =>
        rw [hb] at hsel
        simp [RestoreV2.select_backup] at hsel
      | cons x xs => simp
    constructor
    · intro hfull htarget
      simp [RestoreV2.v2_main, hempty, hsel, hdl, hnv, hfull, htarget,
        RestoreV2.restore_full_backup, hdr, hconfirm]
    · intro hfull
      simp [RestoreV2.v2_main, hempty, hsel, hdl, hnv, hfull,
        RestoreV2.restore_incremental_backup, hdr]

/-- Witness for C10: the file name `srv_full_1.tar.gz` (no `.img.gz`
suffix) is routed to the full-image path purely because it contains the
substring `full`. -/
theorem restore_dispatch_by_filename_witness :
    (∃ a b, ("srv_full_1.tar.gz" : String).data =
        a ++ (("full" : String).data) ++ b) ∨
    (∃ a, ("srv_full_1.tar.gz" : String).data =
        a ++ ((".img.gz" : String).data)) :=
  (restore_dispatch_by_filename.1 "srv_full_1.tar.gz").mp (by decide)


/-! ## Claim C6 -/

theorem entry_lt_asymm (a b : RestoreV2.BackupEntry)
    (h : RestoreV2.entry_lt a b = true) : RestoreV2.entry_lt b a = false := by
  simp only [RestoreV2.entry_lt, decide_eq_true_eq] at h
  simp only [RestoreV2.entry_lt, decide_eq_false_iff_not]
  omega

theorem entry_lt_trans (a b c : RestoreV2.BackupEntry)
    (h1 : RestoreV2.entry_lt a b = true) (h2 : RestoreV2.entry_lt b c = true) :
    RestoreV2.entry_lt a c = true := by
  simp only [RestoreV2.entry_lt, decide_eq_true_eq] at h1 h2 ⊢
  omega

/-- Claim C6: for any listing whose filtered backup list is non-empty
and has pairwise-distinct last-modified times, resolving the selector
`latest` returns the entry with the maximum `lastModified` (the head of
the reverse-chronological listing), and it returns that same entry for
every permutation of the listing — selection is independent of insertion
order and of any timestamp embedded in file names. -/
theorem resolve_latest_selects_most_recent
    (contents : List S3Obj)
    (hne : RestoreV2.list_backups_s3 contents ≠ [])
    (hdist : (RestoreV2.list_backups_s3 contents).Pairwise
      (fun a b => a.last_modified ≠ b.last_modified)) :
    ∃ b, RestoreV2.select_backup "latest"
        (RestoreV2.list_backups_s3 contents) = some b ∧
      b ∈ RestoreV2.list_backups_s3 contents ∧
      (∀ c ∈ RestoreV2.list_backups_s3 contents,
        c.last_modified ≤ b.last_modified) ∧
      (∀ contents2, List.Perm contents2 contents →
        RestoreV2.select_backup "latest"
          (RestoreV2.list_backups_s3 contents2) = some b) := by
  cases hl : RestoreV2.list_backups_s3 contents with
  | nil => exact absurd hl hne
  | cons b rest =>
    have hl' : sortDescLt RestoreV2.entry_lt (RestoreV2.raw_entries contents)
        = b :: rest := hl
    have hhead : (sortDescLt RestoreV2.entry_lt
        (RestoreV2.raw_entries contents)).head? = some b := by
      rw [hl']
      rfl
    have hmax := sortDescLt_head_max RestoreV2.entry_lt
      entry_lt_asymm entry_lt_trans (RestoreV2.raw_entries contents) b hhead
    refine ⟨b, ?_, ?_, ?_, ?_⟩
    · simp [RestoreV2.select_backup]
    · exact List.mem_cons_self b rest
    · intro c hc
      rw [← hl'] at hc
      have hc' : c ∈ RestoreV2.raw_entries contents :=
        (sortDescLt_perm RestoreV2.entry_lt
          (RestoreV2.raw_entries contents)).mem_iff.mp hc
      have hle := hmax.2 c hc'
      simp only [RestoreV2.entry_lt, decide_eq_false_iff_not] at hle
      omega
    · intro contents2 hperm
      have hbase : List.Perm (RestoreV2.raw_entries contents2)
          (RestoreV2.raw_entries contents) := by
        unfold RestoreV2.raw_entries
        exact (hperm.filter _).map _
      cases hl2 : RestoreV2.list_backups_s3 contents2 with
      | nil =>
        exfalso
        have hl2' : sortDescLt RestoreV2.entry_lt
            (RestoreV2.raw_entries contents2) = [] := hl2
        have h0 : (RestoreV2.raw_entries contents2).length = 0 := by
          have hlen := (sortDescLt_perm RestoreV2.entry_lt
            (RestoreV2.raw_entries contents2)).length_eq
          rw [hl2'] at hlen
          simpa using hlen.symm
        have h1 : (RestoreV2.raw_entries contents).length = 0 := by
          rw [← hbase.length_eq]
          exact h0
        have h2 := (sortDescLt_perm RestoreV2.entry_lt
          (RestoreV2.raw_entries contents)).length_eq
        rw [hl', h1] at h2
        simp at h2
      | cons b2 rest2 =>
        have hl2' : sortDescLt RestoreV2.entry_lt
            (RestoreV2.raw_entries contents2) = b2 :: rest2 := hl2
        have hhead2 : (sortDescLt RestoreV2.entry_lt
            (RestoreV2.raw_entries contents2)).head? = some b2 := by
          rw [hl2']
          rfl
        have hmax2 := sortDescLt_head_max RestoreV2.entry_lt
          entry_lt_asymm entry_lt_trans (RestoreV2.raw_entries contents2)
          b2 hhead2
        have hb2base : b2 ∈ RestoreV2.raw_entries contents :=
          hbase.mem_iff.mp hmax2.1
        have hle1 : b.last_modified ≤ b2.last_modified := by
          have hbb2 : b ∈ RestoreV2.raw_entries contents2 :=
            hbase.mem_iff.mpr hmax.1
          have hle := hmax2.2 b hbb2
          simp only [RestoreV2.entry_lt, decide_eq_false_iff_not] at hle
          omega
        have hle2 : b2.last_modified ≤ b.last_modified := by
          have hle := hmax.2 b2 hb2base
          simp only [RestoreV2.entry_lt, decide_eq_false_iff_not] at hle
          omega
        have hb2sorted : b2 ∈ RestoreV2.list_backups_s3 contents :=
          (sortDescLt_perm RestoreV2.entry_lt
            (RestoreV2.raw_entries contents)).mem_iff.mpr hb2base
        have hbsorted : b ∈ RestoreV2.list_backups_s3 contents := by
          rw [hl]
          exact List.mem_cons_self b rest
        have heq : b2 = b := by
          by_contra hneq
          exact hdist.forall (fun a c h => Ne.symm h) hb2sorted hbsorted hneq
            (Nat.le_antisymm hle2 hle1)
        rw [heq]
        simp [RestoreV2.select_backup]

/-- Witness for C6: three blobs with last-modified times 100 < 200 < 300
inserted in scrambled order. -/
theorem resolve_latest_selects_most_recent_witness :
    ∃ b, RestoreV2.select_backup "latest"
        (RestoreV2.list_backups_s3
          [⟨"backups/b.img.gz", 10, 200⟩, ⟨"backups/c.img.gz", 10, 300⟩,
           ⟨"backups/a.img.gz", 10, 100⟩]) = some b ∧
      b ∈ RestoreV2.list_backups_s3
          [⟨"backups/b.img.gz", 10, 200⟩, ⟨"backups/c.img.gz", 10, 300⟩,
           ⟨"backups/a.img.gz", 10, 100⟩] ∧
      (∀ c ∈ RestoreV2.list_backups_s3
          [⟨"backups/b.img.gz", 10, 200⟩, ⟨"backups/c.img.gz", 10, 300⟩,
           ⟨"backups/a.img.gz", 10, 100⟩],
        c.last_modified ≤ b.last_modified) ∧
      (∀ contents2, List.Perm contents2
          [⟨"backups/b.img.gz", 10, 200⟩, ⟨"backups/c.img.gz", 10, 300⟩,
           ⟨"backups/a.img.gz", 10, 100⟩] →
        RestoreV2.select_backup "latest"
          (RestoreV2.list_backups_s3 contents2) = some b) :=
  resolve_latest_selects_most_recent
    [⟨"backups/b.img.gz", 10, 200⟩, ⟨"backups/c.img.gz", 10, 300⟩,
     ⟨"backups/a.img.gz", 10, 100⟩] (by decide) (by decide)

/-! ## Claim C7 -/

theorem obj_lt_asymm (a b : S3Obj) (h : BackupV2.obj_lt a b = true) :
    BackupV2.obj_lt b a = false := by
  simp only [BackupV2.obj_lt, decide_eq_true_eq] at h
  simp only [BackupV2.obj_lt, decide_eq_false_iff_not]
  omega

theorem obj_lt_trans (a b c : S3Obj) (h1 : BackupV2.obj_lt a b = true)
    (h2 : BackupV2.obj_lt b c = true) : BackupV2.obj_lt a c = true := by
  simp only [BackupV2.obj_lt, decide_eq_true_eq] at h1 h2 ⊢
  omega

/-- Removing exactly one element of a duplicate-free list by a predicate
that keeps everything else shortens it by one. -/
theorem length_filter_ne {α : Type} [DecidableEq α] (l : List α) (m : α)
    (p : α → Bool) (hm : m ∈ l) (hnd : l.Nodup)
    (hp : ∀ b ∈ l, (p b = true ↔ b ≠ m)) :
    (l.filter p).length + 1 = l.length := by
  induction l with
  | nil => cases hm
  | cons x t ih =>
    rcases List.nodup_cons.mp hnd with ⟨hxt, hndt⟩
    rcases List.mem_cons.mp hm with hmx | hmt
    · have hpx : p x = false := by
        cases hcase : p x
        · rfl
        · have hne := (hp x (List.mem_cons_self x t)).mp hcase
          rw [← hmx] at hne
          exact absurd rfl hne
      have hft : List.filter p t = t := by
        apply List.filter_eq_self.mpr
        intro b hb
        refine (hp b (List.mem_cons_of_mem x hb)).mpr ?_
        intro hbm
        rw [hbm, hmx] at hb
        exact hxt hb
      rw [List.filter_cons, hpx]
      simp [hft]
    · have hpx : p x = true := by
        refine (hp x (List.mem_cons_self x t)).mpr ?_
        intro hxm
        rw [hxm] at hxt
        exact hxt hmt
      have iht := ih hmt hndt fun b hb => hp b (List.mem_cons_of_mem x hb)
      rw [List.filter_cons, hpx]
      simp only [if_true, List.length_cons]
      omega

/-- Claim C7: rotating a listing whose non-manifest blobs number 6, at
pairwise-distinct last-modified times (keys unique as in any S3
listing), deletes exactly the single oldest blob together with its
sidecar manifest key, and exactly the other 5 (the most recent 5)
non-manifest blobs remain; with 5 or fewer non-manifest blobs nothing
is deleted at all. -/
theorem rotate_deletes_single_oldest (listing : List S3Obj) :
    ((BackupV2.backup_objects listing).length = 6 →
     (BackupV2.backup_objects listing).Pairwise
       (fun a b => a.lastModified ≠ b.lastModified) →
     (BackupV2.backup_objects listing).Pairwise (fun a b => a.key ≠ b.key) →
     ∃ m, m ∈ BackupV2.backup_objects listing ∧
       (∀ b ∈ BackupV2.backup_objects listing,
         b ≠ m → m.lastModified < b.lastModified) ∧
       BackupV2.rotate_s3_backups listing =
         [m.key, m.key ++ ".manifest.json"] ∧
       m ∉ BackupV2.afterRotate listing ∧
       (∀ b ∈ BackupV2.backup_objects listing,
         b ≠ m → b ∈ BackupV2.afterRotate listing) ∧
       (BackupV2.backup_objects (BackupV2.afterRotate listing)).length = 5) ∧
    ((BackupV2.backup_objects listing).length ≤ 5 →
     BackupV2.rotate_s3_backups listing = [] ∧
     BackupV2.afterRotate listing = listing) := by
  have hpermS : List.Perm (BackupV2.sorted_backups listing)
      (BackupV2.backup_objects listing) :=
    sortDescLt_perm BackupV2.obj_lt (BackupV2.backup_objects listing)
  constructor
  · intro h6 hdist hkeys
    have hlen : (BackupV2.sorted_backups listing).length = 6 :=
      hpermS.length_eq.trans h6
    have hdroplen : ((BackupV2.sorted_backups listing).drop 5).length = 1 := by
      rw [List.length_drop, hlen]
    obtain ⟨m, hm⟩ : ∃ m, (BackupV2.sorted_backups listing).drop 5 = [m] := by
      cases hd : (BackupV2.sorted_backups listing).drop 5 with
      | nil =>
        rw [hd] at hdroplen
        simp at hdroplen
      | cons m rest =>
        cases rest with
        | nil => exact ⟨m, rfl⟩
        | cons r rs =>
          rw [hd] at hdroplen
          simp at hdroplen
    have hmdrop : m ∈ (BackupV2.sorted_backups listing).drop 5 := by
      rw [hm]
      exact List.mem_singleton_self m
    have hmmem_sorted : m ∈ BackupV2.sorted_backups listing :=
      List.mem_of_mem_drop hmdrop
    have hmmem : m ∈ BackupV2.backup_objects listing :=
      hpermS.mem_iff.mp hmmem_sorted
    have hpw : (BackupV2.sorted_backups listing).Pairwise
        (fun a b => BackupV2.obj_lt a b = false) :=
      sortDescLt_pairwise BackupV2.obj_lt obj_lt_asymm obj_lt_trans
        (BackupV2.backup_objects listing)
    have hsplit : BackupV2.sorted_backups listing =
        (BackupV2.sorted_backups listing).take 5 ++
          (BackupV2.sorted_backups listing).drop 5 :=
      (List.take_append_drop 5 _).symm
    have hmin : ∀ b ∈ BackupV2.backup_objects listing,
        b ≠ m → m.lastModified < b.lastModified := by
      intro b hb hbm
      have hbs : b ∈ BackupV2.sorted_backups listing := hpermS.mem_iff.mpr hb
      rw [hsplit] at hbs
      rcases List.mem_append.mp hbs with hbtake | hbdrop
      · have hpw' : ((BackupV2.sorted_backups listing).take 5 ++
            (BackupV2.sorted_backups listing).drop 5).Pairwise
            (fun a b => BackupV2.obj_lt a b = false) := by
          rw [← hsplit]
          exact hpw
        have hcross := (List.pairwise_append.mp hpw').2.2 b hbtake m hmdrop
        simp only [BackupV2.obj_lt, decide_eq_false_iff_not] at hcross
        have hne := hdist.forall (fun a c h => Ne.symm h) hb hmmem hbm
        omega
      · rw [hm] at hbdrop
        simp at hbdrop
        exact absurd hbdrop hbm
    have hrot : BackupV2.rotate_s3_backups listing =
        [m.key, m.key ++ ".manifest.json"] := by
      unfold BackupV2.rotate_s3_backups
      rw [if_pos (by rw [hlen]; omega)]
      rw [hm]
      rfl
    have hkeepiff : ∀ b ∈ BackupV2.backup_objects listing,
        ((!((BackupV2.rotate_s3_backups listing).contains b.key)) = true ↔
          b ≠ m) := by
      intro b hb
      constructor
      · intro hkeep hbm
        rw [hbm, hrot] at hkeep
        simp at hkeep
      · intro hbm
        have hbnm : strEndsWith b.key ".manifest.json" = false := by
          have h2 := (List.mem_filter.mp hb).2
          simpa using h2
        have hkeyne : b.key ≠ m.key :=
          hkeys.forall (fun a c h => Ne.symm h) hb hmmem hbm
        have hkeyne2 : b.key ≠ m.key ++ ".manifest.json" := by
          intro heq
          have hsw : strEndsWith b.key ".manifest.json" = true := by
            rw [heq]
            exact strEndsWith_append m.key ".manifest.json"
          rw [hbnm] at hsw
          exact absurd hsw (by decide)
        rw [hrot]
        simp [hkeyne, hkeyne2]
    have hnodup : (BackupV2.backup_objects listing).Nodup :=
      hkeys.imp fun hab h => hab (congrArg S3Obj.key h)
    refine ⟨m, hmmem, hmin, hrot, ?_, ?_, ?_⟩
    · intro hmem
      have hkeep := (List.mem_filter.mp hmem).2
      exact (hkeepiff m hmmem).mp hkeep rfl
    · intro b hb hbm
      exact List.mem_filter.mpr
        ⟨List.mem_of_mem_filter hb, (hkeepiff b hb).mpr hbm⟩
    · have hswap : BackupV2.backup_objects (BackupV2.afterRotate listing) =
          (BackupV2.backup_objects listing).filter
            (fun o => !((BackupV2.rotate_s3_backups listing).contains o.key)) := by
        unfold BackupV2.backup_objects BackupV2.afterRotate
        rw [List.filter_filter, List.filter_filter]
        apply List.filter_congr
        intro o ho
        rw [Bool.and_comm]
      rw [hswap]
      have hlf := length_filter_ne (BackupV2.backup_objects listing) m
        (fun o => !((BackupV2.rotate_s3_backups listing).contains o.key))
        hmmem hnodup hkeepiff
      rw [h6] at hlf
      omega
  · intro hle
    have hrot : BackupV2.rotate_s3_backups listing = [] := by
      unfold BackupV2.rotate_s3_backups
      rw [if_neg]
      rw [hpermS.length_eq]
      omega
    refine ⟨hrot, ?_⟩
    unfold BackupV2.afterRotate
    rw [hrot]
    simp

/-- A concrete listing: six backup blobs at distinct last-modified
times 100..600 plus one sidecar manifest object. -/
def listingC7 : List S3Obj :=
  [⟨"backups/srv/b1.img.gz", 10, 100⟩,
   ⟨"backups/srv/b1.img.gz.manifest.json", 1, 101⟩,
   ⟨"backups/srv/b2.img.gz", 10, 200⟩,
   ⟨"backups/srv/b3.img.gz", 10, 300⟩,
   ⟨"backups/srv/b4.tar.gz", 10, 400⟩,
   ⟨"backups/srv/b5.img.gz", 10, 500⟩,
   ⟨"backups/srv/b6.img.gz", 10, 600⟩]

/-- Witness for C7: rotation of the concrete 6-blob listing, and the
no-deletion case on its 5 most recent blobs alone. -/
theorem rotate_deletes_single_oldest_witness :
    (∃ m, m ∈ BackupV2.backup_objects listingC7 ∧
      (∀ b ∈ BackupV2.backup_objects listingC7,
        b ≠ m → m.lastModified < b.lastModified) ∧
      BackupV2.rotate_s3_backups listingC7 =
        [m.key, m.key ++ ".manifest.json"] ∧
      m ∉ BackupV2.afterRotate listingC7 ∧
      (∀ b ∈ BackupV2.backup_objects listingC7,
        b ≠ m → b ∈ BackupV2.afterRotate listingC7) ∧
      (BackupV2.backup_objects (BackupV2.afterRotate listingC7)).length = 5) ∧
    (BackupV2.rotate_s3_backups (listingC7.drop 3) = [] ∧
      BackupV2.afterRotate (listingC7.drop 3) = listingC7.drop 3) :=
  ⟨(rotate_deletes_single_oldest listingC7).1 (by decide) (by decide)
      (by decide),
   (rotate_deletes_single_oldest (listingC7.drop 3)).2 (by decide)⟩
